import Mathlib

/-
  Shallow embedding of the RDT Stop-and-Wait protocol implementation
  (Packet codec, fault-injecting Pipe, Receiver and Sender state machines),
  translated from the JavaScript sources, together with theorems settling
  the specification claims.

  JavaScript numeric conventions used throughout the embedding:
  * bitwise operators first convert their operand with ToInt32
    (value mod 2^32, reinterpreted as a signed 32-bit integer);
  * `DataView.setInt16/setInt32` store the value mod 2^16 / mod 2^32
    big-endian; `getInt16/getInt32` read big-endian and sign-extend;
  * `Uint8Array` slots hold the stored value mod 2^8.
  Machine integers are modelled as `Int`/`Nat` with these explicit
  conversions.
-/

namespace RDT

/-- JS `ToUint32`: the argument reduced mod 2^32, as a natural number. -/
def toUint32 (x : Int) : Nat := (x % (4294967296 : Int)).toNat

/-- JS `ToInt32`: the argument reduced mod 2^32 and reinterpreted as a
signed 32-bit value (the result of `DataView.getInt32`). -/
def toInt32 (x : Int) : Int :=
  if toUint32 x < 2147483648 then (toUint32 x : Int) else (toUint32 x : Int) - 4294967296

/-- The argument reduced mod 2^16 (the raw 16-bit pattern stored by
`DataView.setInt16`). -/
def toUint16 (x : Int) : Nat := (x % (65536 : Int)).toNat

/-- A 16-bit big-endian pattern reinterpreted as a signed value (the result
of `DataView.getInt16`). -/
def toInt16 (x : Int) : Int :=
  if toUint16 x < 32768 then (toUint16 x : Int) else (toUint16 x : Int) - 65536

/-- Byte `i` of the 32-bit two's-complement representation of `x`;
this is the value of the JS expression `(x >> (8*i)) & 0xFF`. -/
def jsByte (x : Int) (i : Nat) : Nat := toUint32 x / 256 ^ i % 256

/-- A packet as built by `new Packet(seqnoOrAckno, data)` or reconstructed
by `Packet.fromByteArray` (Packet.js).  `data = none` models the JS `null`
payload of an ACK packet; payload bytes are naturals below 256. -/
structure Packet where
  seqno : Int
  data : Option (List Nat)
  len : Int
  cksum : Int
deriving Repr, DecidableEq

/-- Constant `Packet.MAX_DATA_SIZE` (Packet.js). -/
def MAX_DATA_SIZE : Nat := 500

/-- Constant `Packet.HEADER_SIZE` (Packet.js). -/
def HEADER_SIZE : Nat := 8

/-- Method `calculateChecksum` (Packet.js): the four bytes of the 32-bit
representation of `seqno` plus every payload byte (each masked with
`& 0xFF`), reduced mod 256. -/
def calculateChecksum (seqno : Int) (data : Option (List Nat)) : Nat :=
  (jsByte seqno 0 + jsByte seqno 1 + jsByte seqno 2 + jsByte seqno 3 +
    ((data.getD []).map (· % 256)).sum) % 256

/-- The field assignments performed by the `Packet` constructor
(`this.seqno`, `this.data`, `this.len`, `this.cksum`). -/
def Packet.build (seqno : Int) (data : Option (List Nat)) : Packet :=
  { seqno := seqno
    data := data
    len := match data with
           | some d => (HEADER_SIZE : Int) + d.length
           | none => (HEADER_SIZE : Int)
    cksum := (calculateChecksum seqno data : Int) }

/-- Constructor `new Packet(seqnoOrAckno, data)` (Packet.js): throws
`'Invalid sequence number'` when the sequence number is negative (it is an
integer by the `Int` model), otherwise performs the field assignments. -/
def Packet.construct (seqno : Int) (data : Option (List Nat)) : Option Packet :=
  if seqno < 0 then none else some (Packet.build seqno data)

/-- Method `verifyChecksum` (Packet.js). -/
def Packet.verifyChecksum (p : Packet) : Bool :=
  p.cksum == (calculateChecksum p.seqno p.data : Int)

/-- Method `isAckPacket` (Packet.js): `data === null || data.length === 0`. -/
def Packet.isAckPacket (p : Packet) : Bool :=
  match p.data with
  | none => true
  | some d => d.isEmpty

/-- Method `isDataPacket` (Packet.js). -/
def Packet.isDataPacket (p : Packet) : Bool := !p.isAckPacket

/-- The payload byte list (empty for a `null` payload). -/
def Packet.dataBytes (p : Packet) : List Nat := p.data.getD []

/-- Big-endian bytes written by `DataView.setInt16(off, x)`. -/
def u16be (x : Int) : List Nat := [toUint16 x / 256, toUint16 x % 256]

/-- Big-endian bytes written by `DataView.setInt32(off, x)`. -/
def u32be (x : Int) : List Nat :=
  [toUint32 x / 16777216 % 256, toUint32 x / 65536 % 256,
   toUint32 x / 256 % 256, toUint32 x % 256]

/-- Method `toByteArray` (Packet.js): header `[cksum:2][len:2][seqno:4]`
big-endian, then the payload bytes (`setUint8` masks each mod 256).
The `ArrayBuffer` has size `this.len`, which for constructor-built packets
is exactly `HEADER_SIZE + payload length`, so the buffer is exactly the
header followed by the payload. -/
def Packet.toByteArray (p : Packet) : List Nat :=
  u16be p.cksum ++ u16be p.len ++ u32be p.seqno ++ (p.data.getD []).map (· % 256)

/-- Read `view.getUint8(i)` on the `Uint8Array` backing `bytes`
(stored values are masked mod 256; out-of-range indices are handled
separately by the callers). -/
def byteGet (bytes : List Nat) (i : Nat) : Nat := bytes.getD i 0 % 256

/-- Read `view.getInt16(off, false)`. -/
def readInt16 (bytes : List Nat) (off : Nat) : Int :=
  toInt16 (byteGet bytes off * 256 + byteGet bytes (off + 1))

/-- Read `view.getInt32(off, false)`. -/
def readInt32 (bytes : List Nat) (off : Nat) : Int :=
  toInt32 (byteGet bytes off * 16777216 + byteGet bytes (off + 1) * 65536 +
    byteGet bytes (off + 2) * 256 + byteGet bytes (off + 3))

/-- Method `Packet.fromByteArray` (Packet.js, validated copy; the Receiver and
Sender embed the identical definition).  Throws `'Packet too small'` below
8 bytes; reads the header fields; when the declared length implies a
positive payload size, reads that many payload bytes — `getUint8` throws a
`RangeError` when the read runs past the end of the buffer. -/
def Packet.fromByteArray (bytes : List Nat) : Except String Packet :=
  if bytes.length < HEADER_SIZE then .error "Packet too small"
  else
    let cksum := readInt16 bytes 0
    let len := readInt16 bytes 2
    let seqno := readInt32 bytes 4
    let dataLength : Int := len - (HEADER_SIZE : Int)
    if 0 < dataLength then
      if bytes.length < HEADER_SIZE + dataLength.toNat then .error "RangeError"
      else .ok { seqno := seqno
                 data := some (((bytes.drop HEADER_SIZE).take dataLength.toNat).map (· % 256))
                 len := len
                 cksum := cksum }
    else .ok { seqno := seqno, data := none, len := len, cksum := cksum }

/-- The network simulator's configuration fields (`Pipe`, Pipe.js).
Rates and delay are rationals standing for JS floating-point values. -/
structure Pipe where
  lossRate : ℚ
  corruptionRate : ℚ
  delay : ℚ
deriving Repr, DecidableEq

/-- Method `_validateRate` (Pipe.js): clamp to `[0, 1]` via `Math.max(0, Math.min(1, rate))`. -/
def clampRate (r : ℚ) : ℚ := max 0 (min 1 r)

/-- Method `_validateDelay` (Pipe.js): clamp to `≥ 0` via `Math.max(0, delay)`. -/
def clampDelay (d : ℚ) : ℚ := max 0 d

/-- Constructor `new Pipe(lossRate, corruptionRate, delay)` (Pipe.js). -/
def Pipe.construct (lossRate corruptionRate delay : ℚ) : Pipe :=
  { lossRate := clampRate lossRate
    corruptionRate := clampRate corruptionRate
    delay := clampDelay delay }

/-- Method `Pipe.send` (Pipe.js).  `r1`, `r2` are the two `Math.random()` draws in
`[0,1)` and `b = Math.floor(Math.random() * 256)` the random corruption
byte.  Returns the delivered packet (`none` = lost) together with the pipe
object, whose fields the method never assigns.  The delay sleep has no
observable protocol effect and is not modelled. -/
def Pipe.send (p : Pipe) (pkt : Packet) (r1 r2 : ℚ) (b : Nat) : Option Packet × Pipe :=
  if r1 < p.lossRate then (none, p)
  else if r2 < p.corruptionRate then (some { pkt with cksum := (b : Int) }, p)
  else (some pkt, p)

/-- Method `Pipe.isPacketValid` (Pipe.js): a `null` packet is invalid, otherwise
delegate to `verifyChecksum`.  Reads no configuration field. -/
def Pipe.isPacketValid (pkt : Option Packet) : Bool :=
  match pkt with
  | none => false
  | some q => q.verifyChecksum

/-- Method `Pipe.updateConfig` (Pipe.js): each field present in the argument
object replaces the stored one after clamping. -/
def Pipe.updateConfig (p : Pipe) (lossRate corruptionRate delay : Option ℚ) : Pipe :=
  { lossRate := match lossRate with
                | some r => clampRate r
                | none => p.lossRate
    corruptionRate := match corruptionRate with
                      | some r => clampRate r
                      | none => p.corruptionRate
    delay := match delay with
             | some d => clampDelay d
             | none => p.delay }

/-- One invocation of a `Pipe` method, with its arguments. -/
inductive PipeOp where
  | send (pkt : Packet) (r1 r2 : ℚ) (b : Nat)
  | isValid (pkt : Option Packet)
  | getConfig
  | toStr
  | update (lossRate corruptionRate delay : Option ℚ)
deriving Repr, DecidableEq

/-- The pipe object after running one method: only `updateConfig` assigns
to `this`; `send` mutates its packet argument, never the pipe. -/
def Pipe.applyOp (p : Pipe) : PipeOp → Pipe
  | .send pkt r1 r2 b => (p.send pkt r1 r2 b).2
  | .isValid _ => p
  | .getConfig => p
  | .toStr => p
  | .update l c d => p.updateConfig l c d

/-- The pipe object after a sequence of method invocations. -/
def Pipe.applyOps (p : Pipe) (ops : List PipeOp) : Pipe :=
  ops.foldl Pipe.applyOp p

/-- The configuration bounds established by construction-time clamping. -/
def Pipe.wf (p : Pipe) : Prop :=
  0 ≤ p.lossRate ∧ p.lossRate ≤ 1 ∧ 0 ≤ p.corruptionRate ∧ p.corruptionRate ≤ 1 ∧
    0 ≤ p.delay

instance (p : Pipe) : Decidable p.wf := by unfold Pipe.wf; infer_instance

/-- The receiver object's protocol state (`Receiver`, Receiver.js):
`expectedSeqno`, the output sink (`fileOutput`, modelled as the list of
bytes written so far), the statistics counters and the `done` flag.
`windowSize` is stored by the constructor and read by no handler.
Socket, port and output filename are I/O glue and are not modelled. -/
structure RState where
  windowSize : Int
  expectedSeqno : Int
  output : List Nat
  packetsReceived : Nat
  acksSent : Nat
  packetsCorrupted : Nat
  outOfOrderPackets : Nat
  bytesReceived : Nat
  done : Bool
deriving Repr, DecidableEq

/-- Constructor `new Receiver(port, windowSize, ...)` (Receiver.js): protocol fields. -/
def Receiver.construct (windowSize : Int) : RState :=
  { windowSize := windowSize
    expectedSeqno := 0
    output := []
    packetsReceived := 0
    acksSent := 0
    packetsCorrupted := 0
    outOfOrderPackets := 0
    bytesReceived := 0
    done := false }

/-- Method `sendACK` (Receiver.js): builds `new Packet(ackno)` and transmits it;
a constructor throw is caught inside `sendACK`, in which case nothing is
sent.  The result is the list of ACK packets actually put on the wire. -/
def sendAckAction (ackno : Int) : List Packet :=
  match Packet.construct ackno none with
  | some a => [a]
  | none => []

/-- Method `Receiver.handlePacket` (Receiver.js): decode (a parse failure is
swallowed by the outer catch), count the packet, then branch on checksum
validity and sequence number, exactly following the source's order of
state updates.  Returns the new state and the ACK packets sent. -/
def handlePacket (st : RState) (msg : List Nat) : RState × List Packet :=
  match Packet.fromByteArray msg with
  | .error _ => (st, [])
  | .ok packet =>
    let st1 := { st with packetsReceived := st.packetsReceived + 1 }
    if !Pipe.isPacketValid (some packet) then
      ({ st1 with packetsCorrupted := st1.packetsCorrupted + 1 },
        sendAckAction st1.expectedSeqno)
    else if packet.seqno = st1.expectedSeqno then
      let st2 := if packet.isDataPacket then
          { st1 with output := st1.output ++ packet.dataBytes
                     bytesReceived := st1.bytesReceived + packet.dataBytes.length }
        else st1
      let st3 := { st2 with acksSent := st2.acksSent + 1
                            expectedSeqno := 1 - st2.expectedSeqno }
      let st4 := if packet.isDataPacket && decide (packet.dataBytes.length < MAX_DATA_SIZE) then
          { st3 with done := true }
        else st3
      (st4, sendAckAction st1.expectedSeqno)
    else
      ({ st1 with outOfOrderPackets := st1.outOfOrderPackets + 1 },
        sendAckAction (1 - st1.expectedSeqno))

/-- The sender object's statistics counters (`Sender`, part_001). -/
structure SStats where
  packetsSent : Nat
  acksReceived : Nat
  retransmissions : Nat
  timeouts : Nat
deriving Repr, DecidableEq

/-- Counters at construction time. -/
def SStats.init : SStats := ⟨0, 0, 0, 0⟩

/-- The sender's environment: everything on the far side of one
send-then-wait round trip (channel, receiver, channel back).  Given its
state and the bytes the sender put on the wire, it yields the bytes the
sender's `receiveACK` resolves with (`none` = timeout) and its next
state. -/
def Responder (σ : Type) := σ → List Nat → Option (List Nat) × σ

/-- The sender's protocol-relevant constructor fields (part_001):
`windowSize`, the pipe, `currentSeqno = 0`, `timeout = 2000`,
`maxRetries = 5`.  Address, ports, filename and socket are I/O glue. -/
structure SenderC where
  windowSize : Int
  pipe : Pipe
  currentSeqno : Int
  timeout : Nat
  maxRetries : Nat
deriving Repr, DecidableEq

/-- Constructor `new Sender(serverAddress, serverPort, clientPort, filename,
windowSize, lossRate, corruptionRate, delay)` (part_001). -/
def Sender.construct (windowSize : Int) (lossRate corruptionRate delay : ℚ) : SenderC :=
  { windowSize := windowSize
    pipe := Pipe.construct lossRate corruptionRate delay
    currentSeqno := 0
    timeout := 2000
    maxRetries := 5 }

/-- The inner `while (!ackReceived && attempts < maxRetries)` loop of
`Sender.sendFile` (part_001) for one chunk.  `fuel = maxRetries - attempts`
bounds the remaining iterations; `attempts` is the JS counter (it decides
the retransmission statistic).  Each iteration: build the data packet (a
constructor throw is caught, costing one attempt), send it (counting
`packetsSent`), wait via the environment, and accept the response iff it
decodes, passes `this.pipe.isPacketValid` and carries `currentSeqno`.
Returns whether an ACK was accepted, the statistics, the environment
state, and the packets actually sent. -/
def attemptLoop {σ : Type} (env : Responder σ) (seqno : Int) (chunk : List Nat) :
    Nat → Nat → SStats → σ → Bool × SStats × σ × List Packet
  | _, 0, st, s => (false, st, s, [])
  | attempts, fuel + 1, st, s =>
    match Packet.construct seqno (some chunk) with
    | none => attemptLoop env seqno chunk (attempts + 1) fuel st s
    | some pkt =>
      let st1 := { st with
        packetsSent := st.packetsSent + 1
        retransmissions := if 0 < attempts then st.retransmissions + 1 else st.retransmissions }
      match env s pkt.toByteArray with
      | (none, s') =>
        let r := attemptLoop env seqno chunk (attempts + 1) fuel
          { st1 with timeouts := st1.timeouts + 1 } s'
        (r.1, r.2.1, r.2.2.1, pkt :: r.2.2.2)
      | (some ackData, s') =>
        match Packet.fromByteArray ackData with
        | .error _ =>
          let r := attemptLoop env seqno chunk (attempts + 1) fuel st1 s'
          (r.1, r.2.1, r.2.2.1, pkt :: r.2.2.2)
        | .ok ack =>
          if Pipe.isPacketValid (some ack) && ack.seqno == seqno then
            (true, { st1 with acksReceived := st1.acksReceived + 1 }, s', [pkt])
          else
            let r := attemptLoop env seqno chunk (attempts + 1) fuel st1 s'
            (r.1, r.2.1, r.2.2.1, pkt :: r.2.2.2)

/-- Chunking `const chunk = fileData.slice(offset, offset + Math.min(500, ...))`,
iterated: the file split into successive chunks of at most
`MAX_DATA_SIZE` bytes. -/
def chunksOf : List Nat → List (List Nat)
  | [] => []
  | x :: tl => ((x :: tl).take MAX_DATA_SIZE) :: chunksOf ((x :: tl).drop MAX_DATA_SIZE)
termination_by l => l.length
decreasing_by simp [List.length_drop, MAX_DATA_SIZE]; omega

/-- The outer `while (offset < fileData.length)` loop of `Sender.sendFile`
(part_001): process the chunks in order; on acceptance toggle
`currentSeqno` (`1 - seqno`) and continue; when a chunk exhausts its
attempts, `break` — later chunks are never attempted.  The returned `Bool`
is `true` iff every chunk was acknowledged. -/
def sendChunks {σ : Type} (env : Responder σ) (maxRetries : Nat) :
    List (List Nat) → Int → SStats → σ → Bool × SStats × σ × List Packet
  | [], _, st, s => (true, st, s, [])
  | c :: rest, seqno, st, s =>
    let r := attemptLoop env seqno c 0 maxRetries st s
    if r.1 then
      let r2 := sendChunks env maxRetries rest (1 - seqno) r.2.1 r.2.2.1
      (r2.1, r2.2.1, r2.2.2.1, r.2.2.2 ++ r2.2.2.2)
    else (false, r.2.1, r.2.2.1, r.2.2.2)

/-- Method `Sender.sendFile` (part_001) for a file with contents `fileData`,
driven against an environment. -/
def Sender.sendFile {σ : Type} (sc : SenderC) (env : Responder σ) (s : σ)
    (fileData : List Nat) : Bool × SStats × σ × List Packet :=
  sendChunks env sc.maxRetries (chunksOf fileData) sc.currentSeqno SStats.init s

/-- The environment for a loss-free, corruption-free, delay-free channel
wired to a receiver: the sender's bytes reach `handlePacket` unchanged and
the receiver's ACK bytes come back unchanged. -/
def perfectEnv : Responder RState := fun rst msg =>
  let r := handlePacket rst msg
  ((r.2.head?).map Packet.toByteArray, r.1)

/-- The environment of a channel with `lossRate = 1`: every transmission
is lost, so every wait ends in a timeout. -/
def lostEnv : Responder Unit := fun s _ => (none, s)

/-- The sender's acceptance test for one wait outcome (part_001, the
`if (ackData)` / `isPacketValid && seqno ===` cascade): the response
arrived before the timeout, decoded, passed the checksum check, and
carries the current sequence number. -/
def acceptsResp (seqno : Int) (resp : Option (List Nat)) : Bool :=
  match resp with
  | none => false
  | some ackData =>
    match Packet.fromByteArray ackData with
    | .error _ => false
    | .ok ack => Pipe.isPacketValid (some ack) && ack.seqno == seqno

/-- A wait outcome that cannot carry a checksum-valid packet: timeout,
undecodable bytes, or a decoded packet failing verification (the shape of
every response on a channel with `corruptionRate = 1` whose random bytes
miss the true checksums). -/
def respChecksumInvalid (resp : Option (List Nat)) : Bool :=
  match resp with
  | none => true
  | some ackData =>
    match Packet.fromByteArray ackData with
    | .error _ => true
    | .ok ack => !ack.verifyChecksum

theorem toUint16_small (x : Int) (h0 : 0 ≤ x) (h : x < 65536) : toUint16 x = x.toNat := by
  unfold toUint16; omega

theorem toInt16_small (x : Int) (h0 : 0 ≤ x) (h : x < 32768) : toInt16 x = x := by
  simp only [toInt16, toUint16]
  split <;> omega

theorem toUint32_small (x : Int) (h0 : 0 ≤ x) (h : x < 4294967296) : toUint32 x = x.toNat := by
  unfold toUint32; omega

theorem toInt32_small (x : Int) (h0 : 0 ≤ x) (h : x < 2147483648) : toInt32 x = x := by
  simp only [toInt32, toUint32]
  split <;> omega

theorem byteGet_cons_zero (b : Nat) (l : List Nat) : byteGet (b :: l) 0 = b % 256 := rfl

theorem byteGet_cons_succ (b : Nat) (l : List Nat) (n : Nat) :
    byteGet (b :: l) (n + 1) = byteGet l n := rfl

theorem map_mod256_eq (l : List Nat) (h : ∀ b ∈ l, b < 256) : l.map (· % 256) = l := by
  induction l with
  | nil => rfl
  | cons x xs ih =>
    simp only [List.map_cons, List.cons.injEq]
    exact ⟨Nat.mod_eq_of_lt (h x (by simp)), ih (fun b hb => h b (by simp [hb]))⟩

/-- Every freshly constructed packet passes its own checksum check. -/
theorem verify_build (s : Int) (d : Option (List Nat)) :
    (Packet.build s d).verifyChecksum = true := by
  simp [Packet.build, Packet.verifyChecksum]

/-- Decoding a byte array whose declared length field matches the actual
size exactly: every field is read back from the wire bytes. -/
theorem fromByteArray_exact (b0 b1 b2 b3 b4 b5 b6 b7 : Nat) (md : List Nat)
    (h0 : b0 < 256) (h1 : b1 < 256) (h2 : b2 < 256) (h3 : b3 < 256)
    (h4 : b4 < 256) (h5 : b5 < 256) (h6 : b6 < 256) (h7 : b7 < 256)
    (hmd : ∀ x ∈ md, x < 256)
    (hlen : toInt16 ((b2 * 256 + b3 : Nat)) = 8 + md.length) :
    Packet.fromByteArray (b0 :: b1 :: b2 :: b3 :: b4 :: b5 :: b6 :: b7 :: md) =
      .ok { seqno := toInt32 ((b4 * 16777216 + b5 * 65536 + b6 * 256 + b7 : Nat))
            data := if md.isEmpty then none else some md
            len := (8 : Int) + md.length
            cksum := toInt16 ((b0 * 256 + b1 : Nat)) } := by
  have hr16 : readInt16 (b0 :: b1 :: b2 :: b3 :: b4 :: b5 :: b6 :: b7 :: md) 0 =
      toInt16 ((b0 * 256 + b1 : Nat)) := by
    simp [readInt16, byteGet, List.getD, Nat.mod_eq_of_lt h0, Nat.mod_eq_of_lt h1]
  have hr16' : readInt16 (b0 :: b1 :: b2 :: b3 :: b4 :: b5 :: b6 :: b7 :: md) 2 =
      toInt16 ((b2 * 256 + b3 : Nat)) := by
    simp [readInt16, byteGet, List.getD, Nat.mod_eq_of_lt h2, Nat.mod_eq_of_lt h3]
  have hr32 : readInt32 (b0 :: b1 :: b2 :: b3 :: b4 :: b5 :: b6 :: b7 :: md) 4 =
      toInt32 ((b4 * 16777216 + b5 * 65536 + b6 * 256 + b7 : Nat)) := by
    simp [readInt32, byteGet, List.getD, Nat.mod_eq_of_lt h4, Nat.mod_eq_of_lt h5,
      Nat.mod_eq_of_lt h6, Nat.mod_eq_of_lt h7]
  unfold Packet.fromByteArray
  rw [hr16, hr16', hr32, hlen]
  have hL : (b0 :: b1 :: b2 :: b3 :: b4 :: b5 :: b6 :: b7 :: md).length = 8 + md.length := by
    simp; omega
  rw [hL]
  simp only [HEADER_SIZE]
  have hnotsmall : ¬ (8 + md.length < 8) := by omega
  rw [if_neg hnotsmall]
  have h8 : ((8 : Nat) : Int) = 8 := by norm_num
  rw [h8]
  have hdl : (8 + (md.length : Int)) - 8 = (md.length : Int) := by ring
  rw [hdl]
  cases md with
  | nil => simp
  | cons x xs =>
    have hpos : (0 : Int) < ((x :: xs).length : Int) := by simp
    rw [if_pos hpos]
    have htn : (((x :: xs).length : Int)).toNat = (x :: xs).length := by simp
    rw [htn]
    have hnr : ¬ ((x :: xs).length + (8 : Nat) < 8 + (x :: xs).length) := by omega
    have hdrop : (b0 :: b1 :: b2 :: b3 :: b4 :: b5 :: b6 :: b7 :: (x :: xs)).drop 8 = x :: xs := rfl
    simp only [hdrop]
    rw [List.take_length]
    simp [map_mod256_eq (x :: xs) hmd, hnr]

/-- Serialization of a constructor-built packet whose checksum field holds
`ck < 256` (covering both the as-built packet and the channel's corruption
of the checksum field): the explicit wire bytes. -/
theorem toByteArray_build_cksum (s : Int) (d : Option (List Nat))
    (hlen : (d.getD []).length ≤ 500) (ck : Nat) (hck : ck < 256) :
    ({ Packet.build s d with cksum := (ck : Int) }).toByteArray =
      0 :: ck :: ((8 + (d.getD []).length) / 256) :: ((8 + (d.getD []).length) % 256) ::
      (toUint32 s / 16777216 % 256) :: (toUint32 s / 65536 % 256) ::
      (toUint32 s / 256 % 256) :: (toUint32 s % 256) :: (d.getD []).map (· % 256) := by
  have hck16 : toUint16 (ck : Int) = ck := by
    rw [toUint16_small (ck : Int) (by omega) (by omega)]; omega
  have hlen16 : toUint16 (((8 + (d.getD []).length : Nat) : Int)) = 8 + (d.getD []).length := by
    rw [toUint16_small _ (by omega) (by omega)]; omega
  have hlenfld : ({ Packet.build s d with cksum := (ck : Int) }).len =
      ((8 + (d.getD []).length : Nat) : Int) := by
    cases d <;> simp [Packet.build, HEADER_SIZE]
  have hdata : ({ Packet.build s d with cksum := (ck : Int) }).data = d := by
    simp [Packet.build]
  unfold Packet.toByteArray
  rw [hlenfld, hdata]
  simp only [u16be, u32be, hck16, hlen16]
  have e0 : ck / 256 = 0 := by omega
  have e1 : ck % 256 = ck := Nat.mod_eq_of_lt hck
  have hseq : (Packet.build s d).seqno = s := by simp [Packet.build]
  simp [e0, e1, hseq]

/-- Decoding the serialization of a constructor-built packet (with an
arbitrary byte `ck < 256` in the checksum field) reproduces the packet:
sequence numbers below 2^31 survive the signed 32-bit read, payloads of at
most 500 bytes keep the length field in signed 16-bit range, and a `none`
payload or nonempty payload is reproduced exactly (`some []` is excluded:
it decodes to `none`). -/
theorem decode_encode_general (s : Int) (hs : 0 ≤ s) (hs2 : s < 2147483648)
    (d : Option (List Nat)) (hlen : (d.getD []).length ≤ 500)
    (hb : ∀ x ∈ d.getD [], x < 256) (hne : d ≠ some [])
    (ck : Nat) (hck : ck < 256) :
    Packet.fromByteArray ({ Packet.build s d with cksum := (ck : Int) }).toByteArray =
      .ok { Packet.build s d with cksum := (ck : Int) } := by
  rw [toByteArray_build_cksum s d hlen ck hck]
  have hmdeq : (d.getD []).map (· % 256) = d.getD [] := map_mod256_eq _ hb
  rw [hmdeq]
  have hlc : toInt16 ((((8 + (d.getD []).length) / 256) * 256 +
      (8 + (d.getD []).length) % 256 : Nat)) = 8 + ((d.getD []).length : Int) := by
    have harg : ((8 + (d.getD []).length) / 256) * 256 + (8 + (d.getD []).length) % 256 =
        8 + (d.getD []).length := by omega
    rw [harg, toInt16_small _ (by omega) (by push_cast; omega)]
    push_cast
    ring
  rw [fromByteArray_exact 0 ck ((8 + (d.getD []).length) / 256)
    ((8 + (d.getD []).length) % 256) (toUint32 s / 16777216 % 256)
    (toUint32 s / 65536 % 256) (toUint32 s / 256 % 256) (toUint32 s % 256)
    (d.getD []) (by omega) hck (by omega) (by omega) (by omega) (by omega) (by omega)
    (by omega) hb hlc]
  have ht : toUint32 s = s.toNat := toUint32_small s hs (by omega)
  have hseq : toInt32 ((toUint32 s / 16777216 % 256 * 16777216 +
      toUint32 s / 65536 % 256 * 65536 + toUint32 s / 256 % 256 * 256 +
      toUint32 s % 256 : Nat)) = s := by
    have harg : toUint32 s / 16777216 % 256 * 16777216 + toUint32 s / 65536 % 256 * 65536 +
        toUint32 s / 256 % 256 * 256 + toUint32 s % 256 = s.toNat := by
      rw [ht]; omega
    rw [harg, toInt32_small _ (by omega) (by omega)]
    omega
  have hcksum : toInt16 ((0 * 256 + ck : Nat)) = (ck : Int) := by
    have harg : (0 * 256 + ck : Nat) = ck := by omega
    rw [harg, toInt16_small _ (by omega) (by omega)]
  rw [hseq, hcksum]
  cases d with
  | none =>
    simp [Packet.build, HEADER_SIZE]
  | some l =>
    cases l with
    | nil => exact absurd rfl hne
    | cons x xs =>
      simp [Packet.build, HEADER_SIZE]

/-- Decoding the serialization of a constructor-built packet reproduces it
exactly (payload `some []` excluded: it decodes to `none`). -/
theorem decode_encode_build (s : Int) (hs : 0 ≤ s) (hs2 : s < 2147483648)
    (d : Option (List Nat)) (hlen : (d.getD []).length ≤ 500)
    (hb : ∀ x ∈ d.getD [], x < 256) (hne : d ≠ some []) :
    Packet.fromByteArray ((Packet.build s d).toByteArray) = .ok (Packet.build s d) := by
  have h := decode_encode_general s hs hs2 d hlen hb hne (calculateChecksum s d)
    (Nat.mod_lt _ (by omega))
  have hid : { Packet.build s d with cksum := ((calculateChecksum s d : Nat) : Int) } =
      Packet.build s d := by
    simp [Packet.build]
  rwa [hid] at h

theorem clampRate_nonneg (r : ℚ) : 0 ≤ clampRate r := le_max_left _ _

theorem clampRate_le_one (r : ℚ) : clampRate r ≤ 1 := max_le zero_le_one (min_le_left _ _)

theorem clampDelay_nonneg (d : ℚ) : 0 ≤ clampDelay d := le_max_left _ _

theorem wf_construct (l c d : ℚ) : (Pipe.construct l c d).wf :=
  ⟨clampRate_nonneg l, clampRate_le_one l, clampRate_nonneg c, clampRate_le_one c,
    clampDelay_nonneg d⟩

theorem wf_updateConfig (p : Pipe) (hp : p.wf) (l c d : Option ℚ) :
    (p.updateConfig l c d).wf := by
  obtain ⟨h1, h2, h3, h4, h5⟩ := hp
  unfold Pipe.updateConfig Pipe.wf
  refine ⟨?_, ?_, ?_, ?_, ?_⟩
  · cases l with
    | some r => exact clampRate_nonneg r
    | none => exact h1
  · cases l with
    | some r => exact clampRate_le_one r
    | none => exact h2
  · cases c with
    | some r => exact clampRate_nonneg r
    | none => exact h3
  · cases c with
    | some r => exact clampRate_le_one r
    | none => exact h4
  · cases d with
    | some r => exact clampDelay_nonneg r
    | none => exact h5

theorem wf_applyOp (p : Pipe) (hp : p.wf) (op : PipeOp) : (p.applyOp op).wf := by
  cases op with
  | send pkt r1 r2 b =>
    simp only [Pipe.applyOp, Pipe.send]
    split <;> [exact hp; split <;> exact hp]
  | isValid pkt => exact hp
  | getConfig => exact hp
  | toStr => exact hp
  | update l c d => exact wf_updateConfig p hp l c d

theorem wf_applyOps (ops : List PipeOp) : ∀ p : Pipe, p.wf → (Pipe.applyOps p ops).wf := by
  induction ops with
  | nil => exact fun p hp => hp
  | cons op rest ih => exact fun p hp => ih (p.applyOp op) (wf_applyOp p hp op)

theorem applyOps_no_update (ops : List PipeOp) :
    ∀ p : Pipe, (∀ op ∈ ops, ∀ a b c', op ≠ PipeOp.update a b c') →
      Pipe.applyOps p ops = p := by
  induction ops with
  | nil => exact fun p _ => rfl
  | cons op rest ih =>
    intro p hno
    have hop : p.applyOp op = p := by
      cases op with
      | send pkt r1 r2 b =>
        simp only [Pipe.applyOp, Pipe.send]
        split
        · rfl
        · split <;> rfl
      | isValid pkt => rfl
      | getConfig => rfl
      | toStr => rfl
      | update a b c' => exact absurd rfl (hno _ (by simp) a b c')
    have hstep : Pipe.applyOps p (op :: rest) = Pipe.applyOps (p.applyOp op) rest := rfl
    rw [hstep, hop]
    exact ih p (fun o ho => hno o (by simp [ho]))

/-- C8: the claim as frozen says every channel operation leaves the
configuration at its construction-time values; but `updateConfig` is a
channel operation and changes `lossRate`. -/
theorem C8_counterexample :
    (Pipe.applyOp (Pipe.construct 0 0 0) (.update (some (1/2)) none none)).lossRate ≠
      (Pipe.construct 0 0 0).lossRate := by
  simp only [Pipe.applyOp, Pipe.updateConfig, Pipe.construct, clampRate, clampDelay]
  norm_num

/-- C8 (amended): construction clamps the rates to `[0,1]` and the delay
to `≥ 0`; every operation preserves these bounds; and every operation
other than `updateConfig` leaves the configuration unchanged
(`updateConfig` replaces the supplied fields with clamped values). -/
theorem C8_config_clamped_and_stable (l c d : ℚ) (p : Pipe) (hp : p.wf)
    (ops : List PipeOp) :
    (Pipe.construct l c d).wf ∧ (Pipe.applyOps p ops).wf ∧
      ((∀ op ∈ ops, ∀ a b c', op ≠ PipeOp.update a b c') → Pipe.applyOps p ops = p) := by
  exact ⟨wf_construct l c d, wf_applyOps ops p hp, applyOps_no_update ops p⟩

/-- C8 witness: concrete application of the amended theorem. -/
theorem C8_config_clamped_and_stable_witness :
    (Pipe.construct 2 (-1) 7).wf ∧
      (Pipe.applyOps (Pipe.construct 0 0 0) [.getConfig]).wf ∧
      ((∀ op ∈ ([.getConfig] : List PipeOp), ∀ a b c', op ≠ PipeOp.update a b c') →
        Pipe.applyOps (Pipe.construct 0 0 0) [.getConfig] = Pipe.construct 0 0 0) :=
  C8_config_clamped_and_stable 2 (-1) 7 (Pipe.construct 0 0 0)
    (wf_construct 0 0 0) [.getConfig]

/-- C10: every constructor-built packet (non-negative sequence number,
optional payload of bytes) is accepted by the constructor and satisfies
`verifyChecksum`, and its checksum field is the mod-256 sum of the four
bytes of the 32-bit sequence-number representation plus all payload
bytes. -/
theorem C10_constructed_packets_verify (s : Int) (hs : 0 ≤ s) (d : Option (List Nat))
    (hd : ∀ b ∈ d.getD [], b < 256) :
    Packet.construct s d = some (Packet.build s d) ∧
    (Packet.build s d).verifyChecksum = true ∧
    (Packet.build s d).cksum =
      ((jsByte s 0 + jsByte s 1 + jsByte s 2 + jsByte s 3 + (d.getD []).sum) % 256 : Nat) := by
  refine ⟨?_, verify_build s d, ?_⟩
  · simp [Packet.construct]
    omega
  · simp only [Packet.build, calculateChecksum, map_mod256_eq _ hd]

/-- C10 witness: the spec's own example, `new Packet(0, "AB")`. -/
theorem C10_constructed_packets_verify_witness :
    (0 : Int) ≤ 0 ∧ (∀ b ∈ ((some [65, 66] : Option (List Nat)).getD []), b < 256) ∧
      (Packet.construct 0 (some [65, 66]) = some (Packet.build 0 (some [65, 66])) ∧
       (Packet.build 0 (some [65, 66])).verifyChecksum = true ∧
       (Packet.build 0 (some [65, 66])).cksum =
         ((jsByte 0 0 + jsByte 0 1 + jsByte 0 2 + jsByte 0 3 +
           ((some [65, 66] : Option (List Nat)).getD []).sum) % 256 : Nat)) :=
  ⟨le_refl 0, by decide,
    C10_constructed_packets_verify 0 (le_refl 0) (some [65, 66]) (by decide)⟩

/-- C9: a sender constructed with a different `windowSize` (all other
constructor arguments equal) produces the identical run — same packets
sent, same statistics, same environment interaction — and the receiver's
packet handler commutes with changing the stored `windowSize`: the
emitted ACKs and every other state field are unaffected.  Stop-and-wait
(one outstanding packet) is enforced regardless of the value. -/
theorem C9_windowSize_irrelevant {σ : Type} (w1 w2 : Int) (l c d : ℚ) (env : Responder σ)
    (s : σ) (file : List Nat) (st : RState) (w : Int) (msg : List Nat) :
    Sender.sendFile (Sender.construct w1 l c d) env s file =
      Sender.sendFile (Sender.construct w2 l c d) env s file ∧
    handlePacket { st with windowSize := w } msg =
      ({ (handlePacket st msg).1 with windowSize := w }, (handlePacket st msg).2) ∧
    (handlePacket (Receiver.construct w1) msg).1.output =
      (handlePacket (Receiver.construct w2) msg).1.output ∧
    (handlePacket (Receiver.construct w1) msg).2 =
      (handlePacket (Receiver.construct w2) msg).2 := by
  have hframe : ∀ (st' : RState) (w' : Int),
      handlePacket { st' with windowSize := w' } msg =
        ({ (handlePacket st' msg).1 with windowSize := w' }, (handlePacket st' msg).2) := by
    intro st' w'
    unfold handlePacket
    cases hF : Packet.fromByteArray msg with
    | error e => rfl
    | ok p =>
      simp only
      split
      · rfl
      · split
        · split <;> split <;> rfl
        · rfl
  have hcw : ∀ w' : Int, Receiver.construct w' = { Receiver.construct w2 with windowSize := w' } := by
    intro w'; rfl
  refine ⟨rfl, hframe st w, ?_, ?_⟩
  · rw [hcw w1, hframe (Receiver.construct w2) w1]
  · rw [hcw w1, hframe (Receiver.construct w2) w1]

theorem toInt16_range (x : Int) : -32768 ≤ toInt16 x ∧ toInt16 x < 32768 := by
  simp only [toInt16, toUint16]
  split <;> omega

theorem sendAckAction_nonneg (e : Int) (he : 0 ≤ e) :
    sendAckAction e = [Packet.build e none] := by
  unfold sendAckAction Packet.construct
  rw [if_neg (by omega : ¬ e < 0)]

/-- C4 (amended): on a decodable packet failing checksum verification the
receiver sends an acknowledgment carrying the current
`expectedSeqno`; `expectedSeqno`, the output sink, `acksSent`,
`outOfOrderPackets` and `bytesReceived` are unchanged — but the
`packetsReceived` and `packetsCorrupted` counters each increase by one. -/
theorem C4_corrupted_packet_handling (st : RState) (msg : List Nat) (p : Packet)
    (hd : Packet.fromByteArray msg = .ok p) (hv : p.verifyChecksum = false) :
    handlePacket st msg =
      ({ st with packetsReceived := st.packetsReceived + 1
                 packetsCorrupted := st.packetsCorrupted + 1 },
        sendAckAction st.expectedSeqno) ∧
    (0 ≤ st.expectedSeqno →
      (handlePacket st msg).2 = [Packet.build st.expectedSeqno none]) := by
  have hmain : handlePacket st msg =
      ({ st with packetsReceived := st.packetsReceived + 1
                 packetsCorrupted := st.packetsCorrupted + 1 },
        sendAckAction st.expectedSeqno) := by
    unfold handlePacket
    rw [hd]
    simp [Pipe.isPacketValid, hv]
  refine ⟨hmain, fun hpos => ?_⟩
  rw [hmain]
  exact sendAckAction_nonneg _ hpos

/-- C4 counterexample: the claim as frozen asserts that handling a
checksum-invalid packet leaves all cumulative counters unchanged; but the
code increments `packetsReceived` (and `packetsCorrupted`) on that path.
Input: the 8-byte array `[0,99,0,8,0,0,0,0]` (checksum field 99, correct
checksum 0). -/
theorem C4_counterexample :
    (handlePacket (Receiver.construct 1) [0, 99, 0, 8, 0, 0, 0, 0]).1.packetsReceived ≠
      (Receiver.construct 1).packetsReceived := by decide

/-- C4 witness: the amended theorem applied at the concrete input. -/
theorem C4_corrupted_packet_handling_witness :
    (Packet.fromByteArray [0, 99, 0, 8, 0, 0, 0, 0] =
        .ok (⟨0, none, 8, 99⟩ : Packet) ∧
      (⟨0, none, 8, 99⟩ : Packet).verifyChecksum = false) ∧
    (handlePacket (Receiver.construct 1) [0, 99, 0, 8, 0, 0, 0, 0] =
      ({ Receiver.construct 1 with
           packetsReceived := (Receiver.construct 1).packetsReceived + 1
           packetsCorrupted := (Receiver.construct 1).packetsCorrupted + 1 },
        sendAckAction (Receiver.construct 1).expectedSeqno) ∧
     (0 ≤ (Receiver.construct 1).expectedSeqno →
       (handlePacket (Receiver.construct 1) [0, 99, 0, 8, 0, 0, 0, 0]).2 =
         [Packet.build (Receiver.construct 1).expectedSeqno none])) :=
  ⟨⟨rfl, by decide⟩,
    C4_corrupted_packet_handling (Receiver.construct 1) [0, 99, 0, 8, 0, 0, 0, 0]
      (⟨0, none, 8, 99⟩ : Packet) rfl (by decide)⟩

/-- C5: on a checksum-valid packet whose sequence number differs from
`expectedSeqno` the receiver leaves the output sink and
`expectedSeqno` untouched (only `packetsReceived` and
`outOfOrderPackets` count up) and re-sends the acknowledgment for
`1 - expectedSeqno`; when both sequence values are binary this matches the
duplicate's own sequence number. -/
theorem C5_duplicate_resend_ack (st : RState) (msg : List Nat) (p : Packet)
    (hd : Packet.fromByteArray msg = .ok p) (hv : p.verifyChecksum = true)
    (hs : p.seqno ≠ st.expectedSeqno) :
    handlePacket st msg =
      ({ st with packetsReceived := st.packetsReceived + 1
                 outOfOrderPackets := st.outOfOrderPackets + 1 },
        sendAckAction (1 - st.expectedSeqno)) ∧
    ((st.expectedSeqno = 0 ∨ st.expectedSeqno = 1) →
      (handlePacket st msg).2 = [Packet.build (1 - st.expectedSeqno) none]) ∧
    ((st.expectedSeqno = 0 ∨ st.expectedSeqno = 1) → (p.seqno = 0 ∨ p.seqno = 1) →
      ∀ a ∈ (handlePacket st msg).2, a.seqno = p.seqno) := by
  have hmain : handlePacket st msg =
      ({ st with packetsReceived := st.packetsReceived + 1
                 outOfOrderPackets := st.outOfOrderPackets + 1 },
        sendAckAction (1 - st.expectedSeqno)) := by
    unfold handlePacket
    rw [hd]
    simp only [Pipe.isPacketValid, hv, Bool.not_true, Bool.false_eq_true, if_false]
    rw [if_neg]
    exact hs
  refine ⟨hmain, fun hbin => ?_, fun hbin hp a ha => ?_⟩
  · rw [hmain]
    exact sendAckAction_nonneg _ (by rcases hbin with h | h <;> omega)
  · rw [hmain] at ha
    rw [sendAckAction_nonneg _ (by rcases hbin with h | h <;> omega :
      (0:Int) ≤ 1 - st.expectedSeqno)] at ha
    simp at ha
    subst ha
    simp [Packet.build]
    rcases hbin with h | h <;> rcases hp with h' | h' <;> omega

/-- C5 witness: receiver expecting 1, duplicate data packet with
sequence number 0 (the spec scenario of a retransmission after a lost
acknowledgment). -/
theorem C5_duplicate_resend_ack_witness :
    (Packet.fromByteArray [0, 131, 0, 10, 0, 0, 0, 0, 65, 66] =
        .ok (⟨0, some [65, 66], 10, 131⟩ : Packet) ∧
      (⟨0, some [65, 66], 10, 131⟩ : Packet).verifyChecksum = true ∧
      (⟨0, some [65, 66], 10, 131⟩ : Packet).seqno ≠
        ({ Receiver.construct 1 with expectedSeqno := 1 } : RState).expectedSeqno) ∧
    (handlePacket { Receiver.construct 1 with expectedSeqno := 1 }
        [0, 131, 0, 10, 0, 0, 0, 0, 65, 66] =
      ({ { Receiver.construct 1 with expectedSeqno := 1 } with
           packetsReceived :=
             ({ Receiver.construct 1 with expectedSeqno := 1 } : RState).packetsReceived + 1
           outOfOrderPackets :=
             ({ Receiver.construct 1 with expectedSeqno := 1 } : RState).outOfOrderPackets + 1 },
        sendAckAction
          (1 - ({ Receiver.construct 1 with expectedSeqno := 1 } : RState).expectedSeqno)) ∧
     ((({ Receiver.construct 1 with expectedSeqno := 1 } : RState).expectedSeqno = 0 ∨
         ({ Receiver.construct 1 with expectedSeqno := 1 } : RState).expectedSeqno = 1) →
       (handlePacket { Receiver.construct 1 with expectedSeqno := 1 }
           [0, 131, 0, 10, 0, 0, 0, 0, 65, 66]).2 =
         [Packet.build
           (1 - ({ Receiver.construct 1 with expectedSeqno := 1 } : RState).expectedSeqno)
           none]) ∧
     ((({ Receiver.construct 1 with expectedSeqno := 1 } : RState).expectedSeqno = 0 ∨
         ({ Receiver.construct 1 with expectedSeqno := 1 } : RState).expectedSeqno = 1) →
       ((⟨0, some [65, 66], 10, 131⟩ : Packet).seqno = 0 ∨
         (⟨0, some [65, 66], 10, 131⟩ : Packet).seqno = 1) →
       ∀ a ∈ (handlePacket { Receiver.construct 1 with expectedSeqno := 1 }
           [0, 131, 0, 10, 0, 0, 0, 0, 65, 66]).2,
         a.seqno = (⟨0, some [65, 66], 10, 131⟩ : Packet).seqno)) :=
  ⟨⟨rfl, by decide, by decide⟩,
    C5_duplicate_resend_ack { Receiver.construct 1 with expectedSeqno := 1 }
      [0, 131, 0, 10, 0, 0, 0, 0, 65, 66] (⟨0, some [65, 66], 10, 131⟩ : Packet)
      rfl (by decide) (by decide)⟩

/-- C3 (amended): decoding fails exactly when fewer than 8 bytes are
supplied or the declared total length exceeds the number of bytes
supplied; on success the payload is a byte-for-byte copy of the first
`declared length - 8` bytes following the header (empty when the declared
length is at most 8) — trailing bytes beyond the declared length are
ignored, not rejected. -/
theorem C3_decode_error_characterization (bytes : List Nat) (hb : ∀ b ∈ bytes, b < 256) :
    ((∃ e, Packet.fromByteArray bytes = .error e) ↔
      (bytes.length < 8 ∨ (bytes.length : Int) < readInt16 bytes 2)) ∧
    (∀ p, Packet.fromByteArray bytes = .ok p →
      p.len = readInt16 bytes 2 ∧
      p.data.getD [] = (bytes.drop 8).take (readInt16 bytes 2 - 8).toNat) := by
  have hrange := toInt16_range ((byteGet bytes 2 * 256 + byteGet bytes 3 : Nat))
  unfold Packet.fromByteArray
  simp only [HEADER_SIZE, Nat.cast_ofNat]
  by_cases h8 : bytes.length < 8
  · rw [if_pos h8]
    constructor
    · constructor
      · intro _
        exact Or.inl h8
      · intro _
        exact ⟨"Packet too small", rfl⟩
    · intro p hp
      exact absurd hp (by simp)
  · rw [if_neg h8]
    have hmap : ((bytes.drop 8).take (readInt16 bytes 2 - 8).toNat).map (· % 256) =
        (bytes.drop 8).take (readInt16 bytes 2 - 8).toNat := by
      apply map_mod256_eq
      intro x hx
      exact hb x (List.mem_of_mem_drop (List.mem_of_mem_take hx))
    by_cases hdl : (0 : Int) < readInt16 bytes 2 - 8
    · rw [if_pos hdl]
      by_cases hrg : bytes.length < 8 + (readInt16 bytes 2 - 8).toNat
      · rw [if_pos hrg]
        constructor
        · constructor
          · intro _
            refine Or.inr ?_
            unfold readInt16 at hdl hrg ⊢
            omega
          · intro _
            exact ⟨"RangeError", rfl⟩
        · intro p hp
          exact absurd hp (by simp)
      · rw [if_neg hrg]
        constructor
        · constructor
          · intro ⟨e, he⟩
            exact absurd he (by simp)
          · intro hor
            rcases hor with hlt | hlt
            · exact absurd hlt h8
            · unfold readInt16 at hdl hrg hlt
              omega
        · intro p hp
          have hp' := hp
          simp only [Except.ok.injEq] at hp'
          subst hp'
          exact ⟨rfl, by simp [Packet.dataBytes, hmap]⟩
    · rw [if_neg hdl]
      constructor
      · constructor
        · intro ⟨e, he⟩
          exact absurd he (by simp)
        · intro hor
          rcases hor with hlt | hlt
          · exact absurd hlt h8
          · unfold readInt16 at hdl hlt
            omega
      · intro p hp
        simp only [Except.ok.injEq] at hp
        subst hp
        refine ⟨rfl, ?_⟩
        have : (readInt16 bytes 2 - 8).toNat = 0 := by
          unfold readInt16 at hdl ⊢
          omega
        simp [this]

/-- C3 counterexample: ten bytes whose declared total length (8) does not
equal 8 plus the number of bytes following the header (8 + 2 = 10); the
claim as frozen says decoding must fail, but the code decodes successfully
(as an 8-byte ACK packet, ignoring the trailing bytes — which also
falsifies 'the payload is a byte-for-byte copy of the bytes following the
header'). -/
theorem C3_counterexample :
    Packet.fromByteArray [0, 0, 0, 8, 0, 0, 0, 0, 9, 9] = .ok (Packet.build 0 none) ∧
    readInt16 [0, 0, 0, 8, 0, 0, 0, 0, 9, 9] 2 = 8 ∧
    ([0, 0, 0, 8, 0, 0, 0, 0, 9, 9] : List Nat).length = 10 ∧
    (Packet.build 0 none).dataBytes = ([] : List Nat) ∧
    ([0, 0, 0, 8, 0, 0, 0, 0, 9, 9] : List Nat).drop 8 = [9, 9] :=
  ⟨rfl, rfl, rfl, rfl, rfl⟩

/-- C3 witness: the amended characterization applied to the concrete
ten-byte input above. -/
theorem C3_decode_error_characterization_witness :
    (∀ b ∈ ([0, 0, 0, 8, 0, 0, 0, 0, 9, 9] : List Nat), b < 256) ∧
    (((∃ e, Packet.fromByteArray [0, 0, 0, 8, 0, 0, 0, 0, 9, 9] = .error e) ↔
        (([0, 0, 0, 8, 0, 0, 0, 0, 9, 9] : List Nat).length < 8 ∨
          ((([0, 0, 0, 8, 0, 0, 0, 0, 9, 9] : List Nat).length : Int) <
            readInt16 [0, 0, 0, 8, 0, 0, 0, 0, 9, 9] 2))) ∧
      (∀ p, Packet.fromByteArray [0, 0, 0, 8, 0, 0, 0, 0, 9, 9] = .ok p →
        p.len = readInt16 [0, 0, 0, 8, 0, 0, 0, 0, 9, 9] 2 ∧
        p.data.getD [] = (([0, 0, 0, 8, 0, 0, 0, 0, 9, 9] : List Nat).drop 8).take
          (readInt16 [0, 0, 0, 8, 0, 0, 0, 0, 9, 9] 2 - 8).toNat)) :=
  ⟨by decide, C3_decode_error_characterization [0, 0, 0, 8, 0, 0, 0, 0, 9, 9] (by decide)⟩

theorem seq_recombine (s : Int) (hs : 0 ≤ s) (hs2 : s < 2147483648) :
    toInt32 ((toUint32 s / 16777216 % 256 * 16777216 + toUint32 s / 65536 % 256 * 65536 +
      toUint32 s / 256 % 256 * 256 + toUint32 s % 256 : Nat)) = s := by
  have ht : toUint32 s = s.toNat := toUint32_small s hs (by omega)
  have harg : toUint32 s / 16777216 % 256 * 16777216 + toUint32 s / 65536 % 256 * 65536 +
      toUint32 s / 256 % 256 * 256 + toUint32 s % 256 = s.toNat := by
    rw [ht]; omega
  rw [harg, toInt32_small _ (by omega) (by omega)]
  omega

theorem len_recombine (L : Nat) (hL : L ≤ 500) :
    toInt16 (((8 + L) / 256 * 256 + (8 + L) % 256 : Nat)) = 8 + (L : Int) := by
  have harg : (8 + L) / 256 * 256 + (8 + L) % 256 = 8 + L := by omega
  rw [harg, toInt16_small _ (by omega) (by push_cast; omega)]
  push_cast
  ring

theorem cksum_data_norm (s : Int) (d : Option (List Nat)) :
    calculateChecksum s (if (d.getD []).isEmpty then none else some (d.getD [])) =
      calculateChecksum s d := by
  cases d with
  | none => rfl
  | some l =>
    cases l with
    | nil => rfl
    | cons x xs => rfl

theorem xor_byte_lt (c : Nat) (hc : c < 256) (j : Nat) (hj : j < 8) : c ^^^ 2 ^ j < 256 := by
  have h1 : c < 2 ^ 8 := by omega
  have h2 : 2 ^ j < 2 ^ 8 := Nat.pow_lt_pow_right (by norm_num) hj
  have := Nat.xor_lt_two_pow h1 h2
  omega

theorem xor_pow_ne (c j : Nat) : c ^^^ 2 ^ j ≠ c := by
  intro h
  have h2 : (c ^^^ 2 ^ j) ^^^ c = 0 := by rw [h]; exact Nat.xor_self c
  have h3 : (c ^^^ 2 ^ j) ^^^ c = 2 ^ j := by
    rw [Nat.xor_comm c (2 ^ j), Nat.xor_cancel_right]
  rw [h3] at h2
  exact absurd h2 (by positivity)

/-- Decoding the encoding of a constructor-built packet whose 2-byte
checksum field has been replaced by `b0' b1'` — when the resulting 16-bit
value differs from the true checksum, the decoded packet fails
verification. -/
theorem decode_flip (s : Int) (hs : 0 ≤ s) (hs2 : s < 2147483648)
    (d : Option (List Nat)) (hlen : (d.getD []).length ≤ 500)
    (hb : ∀ x ∈ d.getD [], x < 256) (b0' b1' : Nat) (h0 : b0' < 256) (h1 : b1' < 256)
    (hne : toInt16 ((b0' * 256 + b1' : Nat)) ≠ ((calculateChecksum s d : Nat) : Int)) :
    ∃ q, Packet.fromByteArray
        (b0' :: b1' :: ((Packet.build s d).toByteArray).drop 2) = .ok q ∧
      q.verifyChecksum = false := by
  have hc : calculateChecksum s d < 256 := Nat.mod_lt _ (by omega)
  have hid : { Packet.build s d with cksum := ((calculateChecksum s d : Nat) : Int) } =
      Packet.build s d := by simp [Packet.build]
  have henc := toByteArray_build_cksum s d hlen (calculateChecksum s d) hc
  rw [hid] at henc
  rw [henc]
  simp only [List.drop]
  have hmdeq : (d.getD []).map (· % 256) = d.getD [] := map_mod256_eq _ hb
  rw [hmdeq]
  rw [fromByteArray_exact b0' b1' ((8 + (d.getD []).length) / 256)
    ((8 + (d.getD []).length) % 256) (toUint32 s / 16777216 % 256)
    (toUint32 s / 65536 % 256) (toUint32 s / 256 % 256) (toUint32 s % 256)
    (d.getD []) h0 h1 (by omega) (by omega) (by omega) (by omega) (by omega)
    (by omega) hb (len_recombine _ hlen)]
  refine ⟨_, rfl, ?_⟩
  simp only [Packet.verifyChecksum, seq_recombine s hs hs2, cksum_data_norm s d]
  simp only [beq_eq_false_iff_ne, ne_eq]
  exact hne

/-- The true-checksum value written into the encoded checksum field is
`[0, c]` big-endian, so a 16-bit value decoded from those two bytes after
a single-bit flip never equals `c`. -/
theorem flip_cksum_ne (c : Nat) (hc : c < 256) (j : Nat) (hj : j < 8) :
    toInt16 ((2 ^ j * 256 + c : Nat)) ≠ (c : Int) ∧
    toInt16 ((0 * 256 + (c ^^^ 2 ^ j) : Nat)) ≠ (c : Int) := by
  constructor
  · interval_cases j <;> (simp only [toInt16, toUint16]; split <;> omega)
  · have hxlt : c ^^^ 2 ^ j < 256 := xor_byte_lt c hc j hj
    have hxne : c ^^^ 2 ^ j ≠ c := xor_pow_ne c j
    have harg : (0 * 256 + (c ^^^ 2 ^ j) : Nat) = c ^^^ 2 ^ j := by omega
    rw [harg, toInt16_small _ (by omega) (by omega)]
    intro h
    exact hxne (by omega)

/-- C2 (amended): for sequence numbers below 2^31 and payloads of at most
500 bytes (or no payload), decoding the encoded packet reproduces the
sequence number, total length and payload bytes exactly and the decoded
packet passes checksum verification; and flipping any single bit of the
2-byte checksum field in the encoded array makes verification of the
decoded packet false.  (For sequence numbers ≥ 2^31 the signed 32-bit
read changes the sequence number — see the counterexample.) -/
theorem C2_roundtrip_and_cksum_flip (s : Int) (hs : 0 ≤ s) (hs2 : s < 2147483648)
    (d : Option (List Nat)) (hlen : (d.getD []).length ≤ 500)
    (hb : ∀ x ∈ d.getD [], x < 256) :
    (∃ p, Packet.fromByteArray ((Packet.build s d).toByteArray) = .ok p ∧
      p.seqno = (Packet.build s d).seqno ∧ p.len = (Packet.build s d).len ∧
      p.dataBytes = (Packet.build s d).dataBytes ∧ p.verifyChecksum = true) ∧
    (∀ i j : Nat, i < 2 → j < 8 →
      ∃ q, Packet.fromByteArray
          (((Packet.build s d).toByteArray).set i
            ((((Packet.build s d).toByteArray).getD i 0) ^^^ 2 ^ j)) = .ok q ∧
        q.verifyChecksum = false) := by
  have hc : calculateChecksum s d < 256 := Nat.mod_lt _ (by omega)
  constructor
  · by_cases hemp : d = some []
    · subst hemp
      have hba : (Packet.build s (some [])).toByteArray = (Packet.build s none).toByteArray := rfl
      refine ⟨Packet.build s none, ?_, ?_, ?_, ?_, verify_build s none⟩
      · rw [hba]
        exact decode_encode_build s hs hs2 none (by simp) (by simp) (by simp)
      · simp [Packet.build]
      · simp [Packet.build, HEADER_SIZE]
      · simp [Packet.dataBytes, Packet.build]
    · exact ⟨Packet.build s d, decode_encode_build s hs hs2 d hlen hb hemp,
        rfl, rfl, rfl, verify_build s d⟩
  · intro i j hi hj
    have hid : { Packet.build s d with cksum := ((calculateChecksum s d : Nat) : Int) } =
        Packet.build s d := by simp [Packet.build]
    have henc := toByteArray_build_cksum s d hlen (calculateChecksum s d) hc
    rw [hid] at henc
    interval_cases i
    · have hset : ((Packet.build s d).toByteArray).set 0
          ((((Packet.build s d).toByteArray).getD 0 0) ^^^ 2 ^ j) =
          (2 ^ j) :: (calculateChecksum s d) :: ((Packet.build s d).toByteArray).drop 2 := by
        rw [henc]
        simp [List.set, List.getD]
      rw [hset]
      exact decode_flip s hs hs2 d hlen hb (2 ^ j) (calculateChecksum s d)
        (by have : (2:Nat) ^ j < 2 ^ 8 := Nat.pow_lt_pow_right (by norm_num) hj; omega) hc
        (flip_cksum_ne (calculateChecksum s d) hc j hj).1
    · have hset : ((Packet.build s d).toByteArray).set 1
          ((((Packet.build s d).toByteArray).getD 1 0) ^^^ 2 ^ j) =
          0 :: ((calculateChecksum s d) ^^^ 2 ^ j) ::
            ((Packet.build s d).toByteArray).drop 2 := by
        rw [henc]
        simp [List.set, List.getD]
      rw [hset]
      exact decode_flip s hs hs2 d hlen hb 0 ((calculateChecksum s d) ^^^ 2 ^ j)
        (by omega) (xor_byte_lt _ hc j hj)
        (flip_cksum_ne (calculateChecksum s d) hc j hj).2

/-- C2 counterexample: the claim as frozen quantifies over every
non-negative integer sequence number, but `DataView.getInt32` is a signed
read: the acknowledgment packet with sequence number 2^31 decodes to
sequence number −2^31, so `decode(encode(p))` does not reproduce `p`'s
sequence number. -/
theorem C2_counterexample :
    Packet.fromByteArray ((Packet.build 2147483648 none).toByteArray) =
      .ok (⟨-2147483648, none, 8, 128⟩ : Packet) ∧
    (Packet.build 2147483648 none).seqno = 2147483648 ∧
    ((-2147483648 : Int) ≠ 2147483648) :=
  ⟨rfl, rfl, by decide⟩

/-- C2 witness: the amended theorem applied at sequence number 0 with
payload "AB". -/
theorem C2_roundtrip_and_cksum_flip_witness :
    ((0 : Int) ≤ 0 ∧ (0 : Int) < 2147483648 ∧
      (((some [65, 66] : Option (List Nat)).getD []).length ≤ 500) ∧
      (∀ x ∈ ((some [65, 66] : Option (List Nat)).getD []), x < 256)) ∧
    ((∃ p, Packet.fromByteArray ((Packet.build 0 (some [65, 66])).toByteArray) = .ok p ∧
        p.seqno = (Packet.build 0 (some [65, 66])).seqno ∧
        p.len = (Packet.build 0 (some [65, 66])).len ∧
        p.dataBytes = (Packet.build 0 (some [65, 66])).dataBytes ∧
        p.verifyChecksum = true) ∧
      (∀ i j : Nat, i < 2 → j < 8 →
        ∃ q, Packet.fromByteArray
            (((Packet.build 0 (some [65, 66])).toByteArray).set i
              ((((Packet.build 0 (some [65, 66])).toByteArray).getD i 0) ^^^ 2 ^ j)) =
            .ok q ∧
          q.verifyChecksum = false)) :=
  ⟨⟨le_refl 0, by decide, by decide, by decide⟩,
    C2_roundtrip_and_cksum_flip 0 (le_refl 0) (by decide) (some [65, 66])
      (by decide) (by decide)⟩

theorem chunksOf_nil : chunksOf [] = [] := by unfold chunksOf; rfl

theorem chunksOf_cons (x : Nat) (tl : List Nat) :
    chunksOf (x :: tl) =
      ((x :: tl).take MAX_DATA_SIZE) :: chunksOf ((x :: tl).drop MAX_DATA_SIZE) := by
  rw [chunksOf.eq_def]

theorem chunksOf_flatten (n : Nat) : ∀ l : List Nat, l.length ≤ n →
    (chunksOf l).flatten = l := by
  induction n with
  | zero =>
    intro l hl
    have hnil : l = [] := List.eq_nil_of_length_eq_zero (by omega)
    subst hnil
    simp [chunksOf_nil]
  | succ n ih =>
    intro l hl
    cases l with
    | nil => simp [chunksOf_nil]
    | cons x tl =>
      rw [chunksOf_cons]
      simp only [List.flatten_cons]
      rw [ih ((x :: tl).drop MAX_DATA_SIZE)
        (by simp only [List.length_drop, List.length_cons, MAX_DATA_SIZE] at hl ⊢; omega)]
      exact List.take_append_drop _ _

theorem chunksOf_mem (n : Nat) : ∀ l : List Nat, l.length ≤ n →
    ∀ c ∈ chunksOf l, c ≠ [] ∧ c.length ≤ 500 ∧ ∀ b ∈ c, b ∈ l := by
  induction n with
  | zero =>
    intro l hl c hc
    have hnil : l = [] := List.eq_nil_of_length_eq_zero (by omega)
    subst hnil
    rw [chunksOf_nil] at hc
    exact absurd hc (by simp)
  | succ n ih =>
    intro l hl c hc
    cases l with
    | nil =>
      rw [chunksOf_nil] at hc
      exact absurd hc (by simp)
    | cons x tl =>
      rw [chunksOf_cons] at hc
      rcases List.mem_cons.mp hc with hhd | htl
      · subst hhd
        refine ⟨by simp [MAX_DATA_SIZE], by simp [MAX_DATA_SIZE], ?_⟩
        intro b hb
        exact List.mem_of_mem_take hb
      · obtain ⟨h1, h2, h3⟩ := ih ((x :: tl).drop MAX_DATA_SIZE)
          (by simp only [List.length_drop, List.length_cons, MAX_DATA_SIZE] at hl ⊢; omega)
          c htl
        exact ⟨h1, h2, fun b hb => List.mem_of_mem_drop (h3 b hb)⟩

/-- One round trip over the perfect channel: the receiver (expecting
exactly the sender's current sequence number) appends the chunk and
acknowledges it, and the sender accepts that acknowledgment on the first
attempt. -/
theorem perfect_attempt (c : List Nat) (hc : c ≠ []) (hclen : c.length ≤ 500)
    (hcb : ∀ b ∈ c, b < 256) (seqno : Int) (hseq : seqno = 0 ∨ seqno = 1)
    (rst : RState) (he : rst.expectedSeqno = seqno) (st : SStats) (attempts fuel : Nat) :
    ∃ st' rst', attemptLoop perfectEnv seqno c attempts (fuel + 1) st rst =
        (true, st', rst', [Packet.build seqno (some c)]) ∧
      rst'.output = rst.output ++ c ∧ rst'.expectedSeqno = 1 - seqno := by
  have hs0 : 0 ≤ seqno := by rcases hseq with h | h <;> omega
  have hs2 : seqno < 2147483648 := by rcases hseq with h | h <;> omega
  have hcon : Packet.construct seqno (some c) = some (Packet.build seqno (some c)) := by
    unfold Packet.construct
    rw [if_neg (by omega)]
  have hdec : Packet.fromByteArray ((Packet.build seqno (some c)).toByteArray) =
      .ok (Packet.build seqno (some c)) :=
    decode_encode_build seqno hs0 hs2 (some c) (by simpa) (by simpa) (by simp [hc])
  have hdp : (Packet.build seqno (some c)).isDataPacket = true := by
    simp [Packet.isDataPacket, Packet.isAckPacket, Packet.build]
    exact hc
  have hHP : ∃ rstA, handlePacket rst ((Packet.build seqno (some c)).toByteArray) =
      (rstA, [Packet.build seqno none]) ∧
      rstA.output = rst.output ++ c ∧ rstA.expectedSeqno = 1 - seqno := by
    unfold handlePacket
    rw [hdec]
    simp only [Pipe.isPacketValid, verify_build, Bool.not_true, Bool.false_eq_true, if_false]
    have hseqeq : (Packet.build seqno (some c)).seqno = rst.expectedSeqno := by
      simp [Packet.build, he]
    rw [if_pos hseqeq, hdp]
    simp only [if_true, Bool.true_and]
    rw [sendAckAction_nonneg rst.expectedSeqno (by omega)]
    rw [he]
    split
    · exact ⟨_, rfl, by simp [Packet.dataBytes, Packet.build], by simp⟩
    · exact ⟨_, rfl, by simp [Packet.dataBytes, Packet.build], by simp⟩
  obtain ⟨rstA, hHPeq, hout, hexp⟩ := hHP
  have hEnv : perfectEnv rst ((Packet.build seqno (some c)).toByteArray) =
      (some ((Packet.build seqno none).toByteArray), rstA) := by
    simp [perfectEnv, hHPeq]
  have hdecAck : Packet.fromByteArray ((Packet.build seqno none).toByteArray) =
      .ok (Packet.build seqno none) :=
    decode_encode_build seqno hs0 hs2 none (by simp) (by simp) (by simp)
  have haccept : (Pipe.isPacketValid (some (Packet.build seqno none)) &&
      (Packet.build seqno none).seqno == seqno) = true := by
    have h1 : Pipe.isPacketValid (some (Packet.build seqno none)) = true := by
      simp [Pipe.isPacketValid, verify_build]
    have h2 : ((Packet.build seqno none).seqno == seqno) = true := by
      simp [Packet.build]
    rw [h1, h2]
    rfl
  unfold attemptLoop
  rw [hcon]
  simp only [hEnv, hdecAck, haccept, if_true]
  exact ⟨_, rstA, rfl, hout, hexp⟩

theorem sendChunks_nil {σ : Type} (env : Responder σ) (maxRetries : Nat) (seqno : Int)
    (st : SStats) (s : σ) :
    sendChunks env maxRetries [] seqno st s = (true, st, s, []) := rfl

theorem sendChunks_cons {σ : Type} (env : Responder σ) (maxRetries : Nat)
    (c : List Nat) (rest : List (List Nat)) (seqno : Int) (st : SStats) (s : σ) :
    sendChunks env maxRetries (c :: rest) seqno st s =
      (let r := attemptLoop env seqno c 0 maxRetries st s
       if r.1 then
         let r2 := sendChunks env maxRetries rest (1 - seqno) r.2.1 r.2.2.1
         (r2.1, r2.2.1, r2.2.2.1, r.2.2.2 ++ r2.2.2.2)
       else (false, r.2.1, r.2.2.1, r.2.2.2)) := rfl

/-- Over the perfect channel every chunk round trip succeeds and the
receiver's output grows by exactly the chunks sent, in order. -/
theorem perfect_chunks (cs : List (List Nat)) :
    ∀ seqno : Int, (seqno = 0 ∨ seqno = 1) →
    ∀ rst : RState, rst.expectedSeqno = seqno →
    (∀ c ∈ cs, c ≠ [] ∧ c.length ≤ 500 ∧ ∀ b ∈ c, b < 256) →
    ∀ st : SStats,
    (sendChunks perfectEnv 5 cs seqno st rst).1 = true ∧
      (sendChunks perfectEnv 5 cs seqno st rst).2.2.1.output = rst.output ++ cs.flatten := by
  induction cs with
  | nil =>
    intro seqno _ rst _ _ st
    simp [sendChunks_nil]
  | cons c rest ih =>
    intro seqno hseq rst he hcs st
    obtain ⟨hc, hclen, hcb⟩ := hcs c (by simp)
    obtain ⟨st', rst', hAL, hout, hexp⟩ :=
      perfect_attempt c hc hclen hcb seqno hseq rst he st 0 4
    simp only [show (4 : Nat) + 1 = 5 from rfl] at hAL
    have hseq' : 1 - seqno = 0 ∨ 1 - seqno = 1 := by
      rcases hseq with h | h <;> subst h <;> simp
    have hrest : ∀ c' ∈ rest, c' ≠ [] ∧ c'.length ≤ 500 ∧ ∀ b ∈ c', b < 256 := by
      intro c' hc'
      exact hcs c' (by simp [hc'])
    obtain ⟨hok, hout2⟩ := ih (1 - seqno) hseq' rst' hexp hrest st'
    rw [sendChunks_cons, hAL]
    simp only [if_true]
    refine ⟨hok, ?_⟩
    rw [hout2, hout]
    simp [List.append_assoc]

/-- C1: over a loss-free, corruption-free, delay-free channel the whole
transfer succeeds and the receiver's output sink holds exactly the
original byte sequence, in order — for every file and every windowSize on
either side. -/
theorem C1_perfect_channel_delivers_file (w wr : Int) (fileData : List Nat)
    (hb : ∀ b ∈ fileData, b < 256) :
    (Sender.sendFile (Sender.construct w 0 0 0) perfectEnv (Receiver.construct wr)
        fileData).1 = true ∧
    (Sender.sendFile (Sender.construct w 0 0 0) perfectEnv (Receiver.construct wr)
        fileData).2.2.1.output = fileData := by
  have hcond : ∀ c ∈ chunksOf fileData, c ≠ [] ∧ c.length ≤ 500 ∧ ∀ b ∈ c, b < 256 := by
    intro c hcmem
    obtain ⟨h1, h2, h3⟩ := chunksOf_mem fileData.length fileData (le_refl _) c hcmem
    exact ⟨h1, h2, fun b hbm => hb b (h3 b hbm)⟩
  have h := perfect_chunks (chunksOf fileData) 0 (Or.inl rfl) (Receiver.construct wr) rfl
    hcond SStats.init
  have hflat : (chunksOf fileData).flatten = fileData :=
    chunksOf_flatten fileData.length fileData (le_refl _)
  have hsf : Sender.sendFile (Sender.construct w 0 0 0) perfectEnv (Receiver.construct wr)
      fileData = sendChunks perfectEnv 5 (chunksOf fileData) 0 SStats.init
        (Receiver.construct wr) := rfl
  rw [hsf]
  refine ⟨h.1, ?_⟩
  rw [h.2, hflat]
  rfl

/-- C1 witness: the spec's "AB" scenario. -/
theorem C1_perfect_channel_delivers_file_witness :
    (∀ b ∈ ([65, 66] : List Nat), b < 256) ∧
    ((Sender.sendFile (Sender.construct 1 0 0 0) perfectEnv (Receiver.construct 1)
        [65, 66]).1 = true ∧
      (Sender.sendFile (Sender.construct 1 0 0 0) perfectEnv (Receiver.construct 1)
        [65, 66]).2.2.1.output = [65, 66]) :=
  ⟨by decide, C1_perfect_channel_delivers_file 1 1 [65, 66] (by decide)⟩

theorem respChecksumInvalid_not_accepted (seqno : Int) (resp : Option (List Nat))
    (h : respChecksumInvalid resp = true) : acceptsResp seqno resp = false := by
  cases resp with
  | none => rfl
  | some ackData =>
    unfold respChecksumInvalid at h
    unfold acceptsResp
    simp only at h ⊢
    cases hdec : Packet.fromByteArray ackData with
    | error e => simp [hdec]
    | ok ack =>
      simp only [hdec] at h ⊢
      have hv : ack.verifyChecksum = false := by
        cases hvb : ack.verifyChecksum
        · rfl
        · rw [hvb] at h
          exact absurd h (by simp)
      simp [Pipe.isPacketValid, hv]

/-- When no wait ever yields an accepted response, the inner attempt loop
sends the identical packet once per unit of fuel, accepts nothing, and
ends in failure. -/
theorem attemptLoop_rejected {σ : Type} (env : Responder σ) (seqno : Int) (hs : 0 ≤ seqno)
    (c : List Nat) (hrej : ∀ t msg, acceptsResp seqno (env t msg).1 = false) :
    ∀ fuel attempts st s, ∃ st' s',
      attemptLoop env seqno c attempts fuel st s =
        (false, st', s', List.replicate fuel (Packet.build seqno (some c))) ∧
      st'.packetsSent = st.packetsSent + fuel ∧ st'.acksReceived = st.acksReceived := by
  intro fuel
  induction fuel with
  | zero =>
    intro attempts st s
    exact ⟨st, s, rfl, by omega, rfl⟩
  | succ fuel ih =>
    intro attempts st s
    have hcon : Packet.construct seqno (some c) = some (Packet.build seqno (some c)) := by
      unfold Packet.construct
      rw [if_neg (by omega)]
    rcases henv : env s (Packet.build seqno (some c)).toByteArray with ⟨resp, s1⟩
    have hr := hrej s (Packet.build seqno (some c)).toByteArray
    rw [henv] at hr
    simp only at hr
    unfold attemptLoop
    rw [hcon]
    simp only
    rw [henv]
    cases resp with
    | none =>
      dsimp only
      obtain ⟨st', s', heq, hsent, hack⟩ := ih (attempts + 1)
        { st with
            packetsSent := st.packetsSent + 1
            retransmissions := if 0 < attempts then st.retransmissions + 1
              else st.retransmissions
            timeouts := st.timeouts + 1 } s1
      rw [heq]
      refine ⟨st', s', ?_, by simp at hsent ⊢; omega, hack⟩
      simp [List.replicate_succ]
    | some ackData =>
      unfold acceptsResp at hr
      dsimp only at hr
      dsimp only
      cases hdec : Packet.fromByteArray ackData with
      | error e =>
        dsimp only
        obtain ⟨st', s', heq, hsent, hack⟩ := ih (attempts + 1)
          { st with
              packetsSent := st.packetsSent + 1
              retransmissions := if 0 < attempts then st.retransmissions + 1
                else st.retransmissions } s1
        rw [heq]
        refine ⟨st', s', ?_, by simp at hsent ⊢; omega, hack⟩
        simp [List.replicate_succ]
      | ok ack =>
        rw [hdec] at hr
        simp only at hr
        dsimp only
        rw [hr]
        simp only [Bool.false_eq_true, if_false]
        obtain ⟨st', s', heq, hsent, hack⟩ := ih (attempts + 1)
          { st with
              packetsSent := st.packetsSent + 1
              retransmissions := if 0 < attempts then st.retransmissions + 1
                else st.retransmissions } s1
        rw [heq]
        refine ⟨st', s', ?_, by simp at hsent ⊢; omega, hack⟩
        simp [List.replicate_succ]

/-- A chunk whose every wait is rejected costs exactly 5 identical
transmissions, zero accepted acknowledgments, and fails the whole run
(the `break` after the inner loop: no later chunk is attempted). -/
theorem sendChunks_all_rejected {σ : Type} (env : Responder σ) (s : σ) (c : List Nat)
    (rest : List (List Nat)) (seqno : Int) (hs : 0 ≤ seqno) (st : SStats)
    (hrej : ∀ t msg, acceptsResp seqno (env t msg).1 = false) :
    (sendChunks env 5 (c :: rest) seqno st s).1 = false ∧
    (sendChunks env 5 (c :: rest) seqno st s).2.2.2 =
      List.replicate 5 (Packet.build seqno (some c)) ∧
    (sendChunks env 5 (c :: rest) seqno st s).2.1.packetsSent = st.packetsSent + 5 ∧
    (sendChunks env 5 (c :: rest) seqno st s).2.1.acksReceived = st.acksReceived := by
  obtain ⟨stF, sF, heq, hsent, hack⟩ := attemptLoop_rejected env seqno hs c hrej 5 0 st s
  rw [sendChunks_cons]
  dsimp only
  rw [heq]
  simp only [Bool.false_eq_true, if_false]
  exact ⟨trivial, trivial, hsent, hack⟩

/-- C6: when no acknowledgment wait ever yields a checksum-valid response
carrying the current sequence number, the sender makes exactly 5
transmission attempts for the current chunk — each the identical packet —
then fails the whole transfer without attempting any later chunk; in
particular with every transmission lost (lossProbability 1, observed as
timeouts) and a nonempty file there are exactly 5 data-packet sends in
total and zero acknowledgments. -/
theorem C6_retry_exhaustion {σ : Type} (env : Responder σ) (s : σ) (c : List Nat)
    (rest : List (List Nat)) (seqno : Int) (hs : 0 ≤ seqno) (st : SStats)
    (hrej : ∀ t msg, acceptsResp seqno (env t msg).1 = false) :
    (∀ (p : Pipe) (pkt : Packet) (r1 r2 : ℚ) (b : Nat), p.lossRate = 1 → 0 ≤ r1 → r1 < 1 →
      Pipe.send p pkt r1 r2 b = (none, p)) ∧
    ((sendChunks env 5 (c :: rest) seqno st s).1 = false ∧
     (sendChunks env 5 (c :: rest) seqno st s).2.2.2 =
       List.replicate 5 (Packet.build seqno (some c)) ∧
     (sendChunks env 5 (c :: rest) seqno st s).2.1.packetsSent = st.packetsSent + 5 ∧
     (sendChunks env 5 (c :: rest) seqno st s).2.1.acksReceived = st.acksReceived) ∧
    (∀ (w : Int) (file : List Nat), file ≠ [] →
      (Sender.sendFile (Sender.construct w 1 0 0) lostEnv () file).1 = false ∧
      (Sender.sendFile (Sender.construct w 1 0 0) lostEnv () file).2.1.packetsSent = 5 ∧
      (Sender.sendFile (Sender.construct w 1 0 0) lostEnv () file).2.1.acksReceived = 0 ∧
      (Sender.sendFile (Sender.construct w 1 0 0) lostEnv () file).2.2.2 =
        List.replicate 5 (Packet.build 0 (some (file.take 500)))) := by
  refine ⟨?_, sendChunks_all_rejected env s c rest seqno hs st hrej, ?_⟩
  · intro p pkt r1 r2 b hloss _ hr1
    unfold Pipe.send
    rw [if_pos (by rw [hloss]; exact hr1)]
  intro w file hne
  cases file with
  | nil => exact absurd rfl hne
  | cons x tl =>
    have hsf : Sender.sendFile (Sender.construct w 1 0 0) lostEnv () (x :: tl) =
        sendChunks lostEnv 5 (chunksOf (x :: tl)) 0 SStats.init () := rfl
    have hch : chunksOf (x :: tl) =
        ((x :: tl).take 500) :: chunksOf ((x :: tl).drop 500) := chunksOf_cons x tl
    obtain ⟨h1, h2, h3, h4⟩ := sendChunks_all_rejected lostEnv () ((x :: tl).take 500)
      (chunksOf ((x :: tl).drop 500)) 0 (le_refl 0) SStats.init (fun _ _ => rfl)
    rw [hsf, hch]
    exact ⟨h1, h3, h4, h2⟩

/-- C6 witness: single-byte file over the always-lost channel. -/
theorem C6_retry_exhaustion_witness :
    ((0 : Int) ≤ 0 ∧
      (∀ (t : Unit) (msg : List Nat), acceptsResp 0 (lostEnv t msg).1 = false)) ∧
    ((∀ (p : Pipe) (pkt : Packet) (r1 r2 : ℚ) (b : Nat), p.lossRate = 1 → 0 ≤ r1 → r1 < 1 →
       Pipe.send p pkt r1 r2 b = (none, p)) ∧
     ((sendChunks lostEnv 5 ([65] :: []) 0 SStats.init ()).1 = false ∧
      (sendChunks lostEnv 5 ([65] :: []) 0 SStats.init ()).2.2.2 =
        List.replicate 5 (Packet.build 0 (some [65])) ∧
      (sendChunks lostEnv 5 ([65] :: []) 0 SStats.init ()).2.1.packetsSent =
        SStats.init.packetsSent + 5 ∧
      (sendChunks lostEnv 5 ([65] :: []) 0 SStats.init ()).2.1.acksReceived =
        SStats.init.acksReceived) ∧
     (∀ (w : Int) (file : List Nat), file ≠ [] →
       (Sender.sendFile (Sender.construct w 1 0 0) lostEnv () file).1 = false ∧
       (Sender.sendFile (Sender.construct w 1 0 0) lostEnv () file).2.1.packetsSent = 5 ∧
       (Sender.sendFile (Sender.construct w 1 0 0) lostEnv () file).2.1.acksReceived = 0 ∧
       (Sender.sendFile (Sender.construct w 1 0 0) lostEnv () file).2.2.2 =
         List.replicate 5 (Packet.build 0 (some (file.take 500))))) :=
  ⟨⟨le_refl 0, fun _ _ => rfl⟩,
    C6_retry_exhaustion lostEnv () [65] [] 0 (le_refl 0) SStats.init (fun _ _ => rfl)⟩

/-- C7 (amended): with corruptionProbability = 1 every delivered packet
has its checksum field replaced by the random source's byte; whenever
that byte differs from the packet's true checksum the receiver appends
nothing to the output sink and does not advance `expectedSeqno`; and a
sender whose every wait outcome is checksum-invalid (or a timeout)
exhausts its 5 attempts on the current chunk and terminates the transfer
in failure rather than hanging.  (The claim's unconditional form fails
when the random byte equals the true checksum — see the
counterexample.) -/
theorem C7_full_corruption {σ : Type} (p : Pipe) (pkt : Packet) (r1 r2 : ℚ) (b : Nat)
    (hcorr : p.corruptionRate = 1) (hr1 : p.lossRate ≤ r1) (hr2 : r2 < 1)
    (s : Int) (hs : 0 ≤ s) (hs2 : s < 2147483648) (d : List Nat) (hdne : d ≠ [])
    (hdlen : d.length ≤ 500) (hdb : ∀ x ∈ d, x < 256) (hb : b < 256)
    (hbad : (b : Int) ≠ ((calculateChecksum s (some d) : Nat) : Int)) (st : RState)
    (env : Responder σ) (s0 : σ) (c : List Nat) (rest : List (List Nat))
    (seqno : Int) (hseq : 0 ≤ seqno) (sst : SStats)
    (hinv : ∀ t msg, respChecksumInvalid (env t msg).1 = true) :
    Pipe.send p pkt r1 r2 b = (some { pkt with cksum := (b : Int) }, p) ∧
    (handlePacket st
        ({ Packet.build s (some d) with cksum := (b : Int) }).toByteArray).1.output =
      st.output ∧
    (handlePacket st
        ({ Packet.build s (some d) with cksum := (b : Int) }).toByteArray).1.expectedSeqno =
      st.expectedSeqno ∧
    (sendChunks env 5 (c :: rest) seqno sst s0).1 = false ∧
    (sendChunks env 5 (c :: rest) seqno sst s0).2.2.2 =
      List.replicate 5 (Packet.build seqno (some c)) ∧
    (sendChunks env 5 (c :: rest) seqno sst s0).2.1.acksReceived = sst.acksReceived := by
  have hsend : Pipe.send p pkt r1 r2 b = (some { pkt with cksum := (b : Int) }, p) := by
    unfold Pipe.send
    rw [if_neg (not_lt.mpr hr1), if_pos (by rw [hcorr]; exact hr2)]
  have hdec : Packet.fromByteArray
      ({ Packet.build s (some d) with cksum := (b : Int) }).toByteArray =
      .ok { Packet.build s (some d) with cksum := (b : Int) } :=
    decode_encode_general s hs hs2 (some d) (by simpa) (by simpa) (by simp [hdne]) b hb
  have hv : ({ Packet.build s (some d) with cksum := (b : Int) } : Packet).verifyChecksum
      = false := by
    simp only [Packet.verifyChecksum, Packet.build]
    simp only [beq_eq_false_iff_ne, ne_eq]
    exact hbad
  have hHP : handlePacket st
      ({ Packet.build s (some d) with cksum := (b : Int) }).toByteArray =
      ({ st with packetsReceived := st.packetsReceived + 1
                 packetsCorrupted := st.packetsCorrupted + 1 },
        sendAckAction st.expectedSeqno) := by
    unfold handlePacket
    rw [hdec]
    simp [Pipe.isPacketValid, hv]
  have hrej : ∀ t msg, acceptsResp seqno (env t msg).1 = false := fun t msg =>
    respChecksumInvalid_not_accepted seqno (env t msg).1 (hinv t msg)
  obtain ⟨h1, h2, h3, h4⟩ := sendChunks_all_rejected env s0 c rest seqno hseq sst hrej
  exact ⟨hsend, by rw [hHP], by rw [hHP], h1, h2, h4⟩

/-- C7 counterexample: the claim as frozen quantifies over every random
source; a corruption draw whose random byte (131) happens to equal the
packet's true checksum leaves the packet verifying, and the receiver
appends its payload — with `corruptionRate = 1` on the channel. -/
theorem C7_counterexample :
    Pipe.send (Pipe.construct 0 1 0) (Packet.build 0 (some [65, 66])) 0 0 131 =
      (some { Packet.build 0 (some [65, 66]) with cksum := (131 : Int) },
        Pipe.construct 0 1 0) ∧
    (handlePacket (Receiver.construct 1)
        ({ Packet.build 0 (some [65, 66]) with cksum := (131 : Int) }).toByteArray).1.output ≠
      (Receiver.construct 1).output := by
  constructor
  · unfold Pipe.send
    rw [if_neg (by norm_num [Pipe.construct, clampRate]),
      if_pos (by norm_num [Pipe.construct, clampRate])]
    rfl
  · decide

/-- C7 witness: the amended theorem at concrete inputs (corruption byte 0,
true checksum 131, always-lost responses on the sender side). -/
theorem C7_full_corruption_witness :
    ((Pipe.construct 0 1 0).corruptionRate = 1 ∧
      (Pipe.construct 0 1 0).lossRate ≤ 0 ∧ (0 : ℚ) < 1 ∧
      (0 : Int) ≤ 0 ∧ (0 : Int) < 2147483648 ∧ ([65, 66] : List Nat) ≠ [] ∧
      ([65, 66] : List Nat).length ≤ 500 ∧ (∀ x ∈ ([65, 66] : List Nat), x < 256) ∧
      (0 : Nat) < 256 ∧
      ((0 : Nat) : Int) ≠ ((calculateChecksum 0 (some [65, 66]) : Nat) : Int) ∧
      (∀ (t : Unit) (msg : List Nat), respChecksumInvalid (lostEnv t msg).1 = true)) ∧
    (Pipe.send (Pipe.construct 0 1 0) (Packet.build 0 (some [65, 66])) 0 0 0 =
      (some { Packet.build 0 (some [65, 66]) with cksum := (0 : Int) },
        Pipe.construct 0 1 0) ∧
    (handlePacket (Receiver.construct 1)
        ({ Packet.build 0 (some [65, 66]) with cksum := (0 : Int) }).toByteArray).1.output =
      (Receiver.construct 1).output ∧
    (handlePacket (Receiver.construct 1)
        ({ Packet.build 0 (some [65, 66]) with cksum := (0 : Int) }).toByteArray).1.expectedSeqno =
      (Receiver.construct 1).expectedSeqno ∧
    (sendChunks lostEnv 5 ([65] :: []) 0 SStats.init ()).1 = false ∧
    (sendChunks lostEnv 5 ([65] :: []) 0 SStats.init ()).2.2.2 =
      List.replicate 5 (Packet.build 0 (some [65])) ∧
    (sendChunks lostEnv 5 ([65] :: []) 0 SStats.init ()).2.1.acksReceived =
      SStats.init.acksReceived) :=
  ⟨⟨by norm_num [Pipe.construct, clampRate], by norm_num [Pipe.construct, clampRate],
      by norm_num, le_refl 0, by decide, by decide, by decide, by decide, by decide,
      by decide, fun _ _ => rfl⟩,
    C7_full_corruption (Pipe.construct 0 1 0) (Packet.build 0 (some [65, 66])) 0 0 0
      (by norm_num [Pipe.construct, clampRate]) (by norm_num [Pipe.construct, clampRate])
      (by norm_num) 0 (le_refl 0) (by decide) [65, 66] (by decide) (by decide)
      (by decide) (by decide) (by decide) (Receiver.construct 1) lostEnv () [65] [] 0
      (le_refl 0) SStats.init (fun _ _ => rfl)⟩

end RDT
